import Mathlib

/-!
Shallow embedding of the maintenance work-order tracker (src/main.py).

The store is one spreadsheet per property.  A sheet is modelled as its
data rows (the header row "Room Number, Work Order, Completion Date,
Status, Best Room" is implicit) together with the sheet's column count
(`ncols`): `openpyxl.iter_rows` pads every row tuple to the sheet's
`max_column` with empty cells, so a row is a `List PyVal` read through
`cellAt`, which pads with `PyVal.none`.

Cell values are modelled by `PyVal`: Python `None`, strings, ints and
`datetime` values (the only kinds the handlers ever store or branch on).
`pyStr` is Python's `str()` on these values.  File persistence is
modelled as `Option Sheet` (missing file = `Option.none`); saving and
re-loading a workbook is the identity in this model.

Each FastAPI handler wraps its whole body in `try: ... except Exception
as e: raise HTTPException(status_code=500, detail=str(e))`.  Since
`HTTPException` is itself an `Exception`, the 400/404 errors raised in
the body are caught and re-raised with status 500; `wrap500` models
exactly that, with `str(e)` modelled by starlette's
`HTTPException.__str__` (`"{status_code}: {detail}"`).
-/

inductive PyVal where
  | none
  | str (s : String)
  | int (n : Int)
  | date (y m d : Nat)
deriving DecidableEq

def padNat (width : Nat) (n : Nat) : String :=
  String.mk (List.replicate (width - (toString n).data.length) '0') ++ toString n

/-- Python `str()` on the modelled cell values; `str(datetime(y,m,d))` is
"YYYY-MM-DD 00:00:00". -/
def pyStr : PyVal → String
  | PyVal.none => "None"
  | PyVal.str s => s
  | PyVal.int n => toString n
  | PyVal.date y m d => padNat 4 y ++ "-" ++ padNat 2 m ++ "-" ++ padNat 2 d ++ " 00:00:00"

/-- Python truthiness of the modelled cell values. -/
def truthy : PyVal → Bool
  | PyVal.none => false
  | PyVal.str s => !s.data.isEmpty
  | PyVal.int n => n != 0
  | PyVal.date _ _ _ => true

def isNoneVal : PyVal → Bool
  | PyVal.none => true
  | _ => false

/-- Reading cell `i` of a row: `iter_rows` pads short rows with empty cells. -/
def cellAt (r : List PyVal) (i : Nat) : PyVal :=
  r.getD i PyVal.none

def padTo (r : List PyVal) (n : Nat) : List PyVal :=
  r ++ List.replicate (n - r.length) PyVal.none

/-- Writing cell `i` of a row (`row[i].value = v`), materialising padded cells
the way openpyxl's read-write mode does. -/
def setCellAt (r : List PyVal) (i : Nat) (v : PyVal) : List PyVal :=
  (padTo r (i + 1)).set i v

structure Sheet where
  ncols : Nat
  rows : List (List PyVal)
deriving DecidableEq

/-- The workbook `ensure_excel_file` creates: only the 5-column header row. -/
def emptySheet : Sheet := ⟨5, []⟩

structure HError where
  status : Nat
  detail : String
deriving DecidableEq

def httpErrStr (e : HError) : String :=
  toString e.status ++ ": " ++ e.detail

/-- Model of the blanket `except Exception as e: raise HTTPException(500, str(e))`
that closes every handler: any error, including an `HTTPException(400/404)`
raised in the body, is re-raised with status 500. -/
def wrap500 {α : Type} : Except HError α → Except HError α
  | Except.error e => Except.error ⟨500, httpErrStr e⟩
  | Except.ok a => Except.ok a

/-- Python `s.split(sep)` for a one-character separator (structural recursion,
so that the kernel can evaluate it). -/
def splitOnCharAux (sep : Char) : List Char → List Char → List String
  | [], acc => [String.mk acc.reverse]
  | c :: cs, acc =>
    if c = sep then String.mk acc.reverse :: splitOnCharAux sep cs []
    else splitOnCharAux sep cs (c :: acc)

def splitOnChar (sep : Char) (s : String) : List String :=
  splitOnCharAux sep s.data []

/-- Python `s.strip()`: drop leading and trailing whitespace. -/
def pyStrip (s : String) : String :=
  String.mk (((s.data.dropWhile Char.isWhitespace).reverse.dropWhile Char.isWhitespace).reverse)

def allDigits (cs : List Char) : Bool :=
  cs.all Char.isDigit

def digitsToNat (cs : List Char) : Nat :=
  cs.foldl (fun a c => a * 10 + (c.toNat - 48)) 0

def isLeap (y : Nat) : Bool :=
  (y % 4 = 0 && y % 100 != 0) || y % 400 = 0

def daysInMonth (y m : Nat) : Nat :=
  if m = 2 then (if isLeap y then 29 else 28)
  else if m = 4 || m = 6 || m = 9 || m = 11 then 30
  else 31

/-- Model of `datetime.strptime(s, "%Y-%m-%d")`: exactly four digits of year,
one or two digits of month and day, literal dashes, nothing else, and the
resulting (year, month, day) must be a valid proleptic-Gregorian date with
year at least 1 (`datetime.MINYEAR`). -/
def parseDate (s : String) : Option (Nat × Nat × Nat) :=
  match splitOnChar '-' s with
  | [ys, ms, ds] =>
    if ys.data.length = 4 && allDigits ys.data
        && 1 ≤ ms.data.length && ms.data.length ≤ 2 && allDigits ms.data
        && 1 ≤ ds.data.length && ds.data.length ≤ 2 && allDigits ds.data then
      let y := digitsToNat ys.data
      let m := digitsToNat ms.data
      let d := digitsToNat ds.data
      if 1 ≤ y && 1 ≤ m && m ≤ 12 && 1 ≤ d && d ≤ daysInMonth y m then
        some (y, m, d)
      else Option.none
    else Option.none
  | _ => Option.none

/-- Python `format_cell_date`: a `datetime` renders as `strftime("%Y-%m-%d")`,
anything else via `str()`. -/
def format_cell_date : PyVal → String
  | PyVal.date y m d => padNat 4 y ++ "-" ++ padNat 2 m ++ "-" ++ padNat 2 d
  | v => pyStr v

/-- The room lookup shared by all four mutating handlers:
`str(row[0].value) == room_number`. -/
def matchesRoom (r : List PyVal) (room : String) : Bool :=
  pyStr (cellAt r 0) == room

/-- Index of the first row whose room cell matches (the `for row in
sheet.iter_rows(min_row=2): if str(row[0].value) == room: ... break` scan). -/
def findRoomIdx : List (List PyVal) → String → Option Nat
  | [], _ => Option.none
  | r :: rs, room =>
    if matchesRoom r room then some 0
    else (findRoomIdx rs room).map (· + 1)

/-- One iteration of the `create_work_order` loop: append `" / " + text` and
overwrite the date on the first matching row, else append a fresh 4-cell row
with status "Pending". -/
def submitPair (rows : List (List PyVal)) (room text : String) (cd : PyVal) :
    List (List PyVal) :=
  match findRoomIdx rows room with
  | some i =>
    let r := rows.getD i []
    let newText := pyStr (cellAt r 1) ++ " / " ++ text
    rows.set i (setCellAt (setCellAt r 1 (PyVal.str newText)) 2 cd)
  | Option.none => rows ++ [[PyVal.str room, PyVal.str text, cd, PyVal.str "Pending"]]

/-- Body of `create_work_order` together with the trace of file saves it
performs: `ensure_excel_file` saves a header-only workbook when the store is
missing, and `wb.save` writes the processed table once after the loop. -/
def createWorkOrderWrites (disk : Option Sheet)
    (room_numbers work_orders completion_date : String) :
    Except HError String × List Sheet :=
  let rooms := (splitOnChar ',' room_numbers).map pyStrip
  let works := (splitOnChar ',' work_orders).map pyStrip
  if rooms.length ≠ works.length then
    (Except.error ⟨400, "Number of rooms and work orders must match"⟩, [])
  else
    match parseDate completion_date with
    | Option.none => (Except.error ⟨400, "Invalid date format. Use YYYY-MM-DD"⟩, [])
    | some (y, m, d) =>
      let init : Sheet × List Sheet :=
        match disk with
        | some s => (s, [])
        | Option.none => (emptySheet, [emptySheet])
      let finalRows :=
        (rooms.zip works).foldl (fun rs p => submitPair rs p.1 p.2 (PyVal.date y m d))
          init.1.rows
      (Except.ok "Work orders saved successfully", init.2 ++ [⟨init.1.ncols, finalRows⟩])

/-- The `create_work_order` handler (body wrapped by the blanket except). -/
def create_work_order (disk : Option Sheet) (rn wo cd : String) :
    Except HError String :=
  wrap500 (createWorkOrderWrites disk rn wo cd).1

/-- Body of `remove_work_order`: 404 on a missing store or unmatched room,
otherwise delete the first matching row and save. -/
def remove_work_order_body (disk : Option Sheet) (room_number : String) :
    Except HError (Sheet × String) :=
  match disk with
  | Option.none => Except.error ⟨404, "No work orders found for this property"⟩
  | some sheet =>
    match findRoomIdx sheet.rows room_number with
    | some i =>
      Except.ok (⟨sheet.ncols, sheet.rows.eraseIdx i⟩,
        "Work order for room " ++ room_number ++ " removed successfully")
    | Option.none =>
      Except.error ⟨404, "No work order found for room " ++ room_number⟩

def remove_work_order (disk : Option Sheet) (room_number : String) :
    Except HError (Sheet × String) :=
  wrap500 (remove_work_order_body disk room_number)

def truthyOptStr : Option String → Bool
  | Option.none => false
  | some s => !s.data.isEmpty

/-- Body of `edit_work_order`; the JSON fields are modelled as
absent-or-string (`data.get` yields `None` for a missing key). -/
def edit_work_order_body (disk : Option Sheet)
    (property_code room_number work_order completion_date : Option String) :
    Except HError (Sheet × String) :=
  if !(truthyOptStr property_code && truthyOptStr room_number
      && truthyOptStr work_order && truthyOptStr completion_date) then
    Except.error ⟨400, "Missing required fields"⟩
  else
    match parseDate (completion_date.getD "") with
    | Option.none => Except.error ⟨400, "Invalid date format. Use YYYY-MM-DD"⟩
    | some (y, m, d) =>
      match disk with
      | Option.none => Except.error ⟨404, "Property not found"⟩
      | some sheet =>
        match findRoomIdx sheet.rows (room_number.getD "") with
        | Option.none => Except.error ⟨404, "Room not found"⟩
        | some i =>
          let r := sheet.rows.getD i []
          Except.ok (⟨sheet.ncols,
              sheet.rows.set i
                (setCellAt (setCellAt r 1 (PyVal.str (work_order.getD ""))) 2
                  (PyVal.date y m d))⟩,
            "Work order updated successfully")

def edit_work_order (disk : Option Sheet)
    (property_code room_number work_order completion_date : Option String) :
    Except HError (Sheet × String) :=
  wrap500 (edit_work_order_body disk property_code room_number work_order completion_date)

/-- Body of `update_room_status`: sets status (column 4) and best-room
(column 5) on the first matching row; when the sheet predates the Best Room
column (`len(row) > 4` fails) the cell is created via `sheet.cell(row, 5)`,
which also grows `max_column` to 5. -/
def update_room_status_body (disk : Option Sheet)
    (property_code room_number status : Option String) (best_room : Option String) :
    Except HError (Sheet × String) :=
  if !(truthyOptStr property_code && truthyOptStr room_number && truthyOptStr status) then
    Except.error ⟨400, "Missing required fields"⟩
  else
    match disk with
    | Option.none => Except.error ⟨404, "Property not found"⟩
    | some sheet =>
      match findRoomIdx sheet.rows (room_number.getD "") with
      | Option.none => Except.error ⟨404, "Room not found"⟩
      | some i =>
        let best := best_room.getD "No"
        let r := sheet.rows.getD i []
        let r2 := setCellAt (setCellAt r 3 (PyVal.str (status.getD ""))) 4 (PyVal.str best)
        Except.ok (⟨if 4 < sheet.ncols then sheet.ncols else 5, sheet.rows.set i r2⟩,
          "Room status updated successfully")

def update_room_status (disk : Option Sheet)
    (property_code room_number status : Option String) (best_room : Option String) :
    Except HError (Sheet × String) :=
  wrap500 (update_room_status_body disk property_code room_number status best_room)

structure WorkOrderOut where
  room_number : String
  work_order : String
  completion_date : String
  status : String
  best_room : String
deriving DecidableEq

/-- The `all(cell.value is not None for cell in row[:4])` filter. -/
def rowHasData (r : List PyVal) : Bool :=
  !isNoneVal (cellAt r 0) && !isNoneVal (cellAt r 1)
    && !isNoneVal (cellAt r 2) && !isNoneVal (cellAt r 3)

/-- The `str(row[4].value) if len(row) > 4 and row[4].value else "No"`
normalisation (`len(row)` is the sheet's column count under `iter_rows`). -/
def bestRoomOf (ncols : Nat) (r : List PyVal) : String :=
  if 4 < ncols && truthy (cellAt r 4) then pyStr (cellAt r 4) else "No"

def mkWorkOrderOut (ncols : Nat) (r : List PyVal) : WorkOrderOut :=
  { room_number := pyStr (cellAt r 0)
    work_order := pyStr (cellAt r 1)
    completion_date := format_cell_date (cellAt r 2)
    status := pyStr (cellAt r 3)
    best_room := bestRoomOf ncols r }

/-- The accumulation loop of `get_work_orders`. -/
def listRows (ncols : Nat) : List (List PyVal) → List WorkOrderOut
  | [] => []
  | r :: rs =>
    if rowHasData r then mkWorkOrderOut ncols r :: listRows ncols rs
    else listRows ncols rs

/-- The `get_work_orders` handler: an empty list (not an error) when the store
file does not exist. -/
def get_work_orders (disk : Option Sheet) : List WorkOrderOut :=
  match disk with
  | Option.none => []
  | some sheet => listRows sheet.ncols sheet.rows

/-- Python `text.split()`: maximal runs of non-whitespace characters. -/
def pySplitAux : List Char → List Char → List String
  | [], acc => if acc.isEmpty then [] else [String.mk acc.reverse]
  | c :: cs, acc =>
    if c.isWhitespace then
      if acc.isEmpty then pySplitAux cs []
      else String.mk acc.reverse :: pySplitAux cs []
    else pySplitAux cs (c :: acc)

def pySplit (s : String) : List String :=
  pySplitAux s.data []

/-- Python `' '.join(words)`. -/
def joinSp : List String → String
  | [] => ""
  | [w] => w
  | w :: ws => w ++ " " ++ joinSp ws

/-- Character advance widths of the built-in Helvetica font, in 1/1000 of the
font size, for the printable ASCII range (the standard Adobe AFM metrics that
reportlab's `stringWidth` sums); characters outside the table contribute 0. -/
def helveticaWidth (c : Char) : Nat :=
  match c with
  | ' ' => 278 | '!' => 278 | '"' => 355 | '#' => 556 | '$' => 556
  | '%' => 889 | '&' => 667 | '\'' => 191 | '(' => 333 | ')' => 333
  | '*' => 389 | '+' => 584 | ',' => 278 | '-' => 333 | '.' => 278
  | '/' => 278
  | '0' => 556 | '1' => 556 | '2' => 556 | '3' => 556 | '4' => 556
  | '5' => 556 | '6' => 556 | '7' => 556 | '8' => 556 | '9' => 556
  | ':' => 278 | ';' => 278 | '<' => 584 | '=' => 584 | '>' => 584
  | '?' => 556 | '@' => 1015
  | 'A' => 667 | 'B' => 667 | 'C' => 722 | 'D' => 722 | 'E' => 667
  | 'F' => 611 | 'G' => 778 | 'H' => 722 | 'I' => 278 | 'J' => 500
  | 'K' => 667 | 'L' => 556 | 'M' => 833 | 'N' => 722 | 'O' => 778
  | 'P' => 667 | 'Q' => 778 | 'R' => 722 | 'S' => 667 | 'T' => 611
  | 'U' => 722 | 'V' => 667 | 'W' => 944 | 'X' => 667 | 'Y' => 667
  | 'Z' => 611
  | '[' => 278 | '\\' => 278 | ']' => 278 | '^' => 469 | '_' => 556
  | '`' => 333
  | 'a' => 556 | 'b' => 556 | 'c' => 500 | 'd' => 556 | 'e' => 556
  | 'f' => 278 | 'g' => 556 | 'h' => 556 | 'i' => 222 | 'j' => 222
  | 'k' => 500 | 'l' => 222 | 'm' => 833 | 'n' => 556 | 'o' => 556
  | 'p' => 556 | 'q' => 556 | 'r' => 333 | 's' => 500 | 't' => 278
  | 'u' => 556 | 'v' => 500 | 'w' => 722 | 'x' => 500 | 'y' => 500
  | 'z' => 500
  | '\x7b' => 334 | '|' => 260 | '\x7d' => 334 | '~' => 584
  | _ => 0

/-- `stringWidth(s, "Helvetica", 10)` scaled by 100: the rendered width in
hundredths of a point. -/
def stringWidthH10x100 (s : String) : Nat :=
  s.data.foldl (fun a c => a + helveticaWidth c) 0

/-- The wrap budget check `c.stringWidth(line, "Helvetica", 10) > 230`
(230 points = 23000 hundredths; the exact floating-point boundary at a width
of precisely 230.00 points is modelled as not exceeding). -/
def exceedsBudget (s : String) : Bool :=
  decide (23000 < stringWidthH10x100 s)

/-- One iteration of the greedy wrap loop in `generate_report`: append the
word; if the joined line now exceeds the budget, pop it, close the previous
line, and restart the current line with that word. -/
def wrapStep (st : List String × List String) (word : String) :
    List String × List String :=
  let cur := st.2 ++ [word]
  if exceedsBudget (joinSp cur) then (st.1 ++ [joinSp st.2], [word])
  else (st.1, cur)

def wrapFold (ws : List String) : List String × List String :=
  ws.foldl wrapStep ([], [])

def wrapLines (ws : List String) : List String :=
  let st := wrapFold ws
  if st.2.isEmpty then st.1 else st.1 ++ [joinSp st.2]

/-- The greedy word-wrap `generate_report` applies to each work-order text. -/
def wrapText (text : String) : List String :=
  wrapLines (pySplit text)

structure ReportRow where
  room : String
  orderLines : List String
  completion : String
  status : String
deriving DecidableEq

/-- Body of `generate_report`, modelled as the textual content it draws for
each row (room, wrapped work-order lines, formatted date, status); 404 when
the store file does not exist. -/
def generate_report_body (disk : Option Sheet) : Except HError (List ReportRow) :=
  match disk with
  | Option.none => Except.error ⟨404, "No work orders found for this property"⟩
  | some sheet =>
    Except.ok (sheet.rows.map (fun r =>
      ⟨pyStr (cellAt r 0), wrapText (pyStr (cellAt r 1)),
        format_cell_date (cellAt r 2), pyStr (cellAt r 3)⟩))

def generate_report (disk : Option Sheet) : Except HError (List ReportRow) :=
  wrap500 (generate_report_body disk)

lemma listGetD_set_self {α : Type} (l : List α) (i : Nat) (v d : α)
    (h : i < l.length) : (l.set i v).getD i d = v := by
  induction l generalizing i with
  | nil => simp at h
  | cons a l ih =>
    cases i with
    | zero => rfl
    | succ j => simpa using ih j (by simpa using h)

lemma listGetD_set_ne {α : Type} (l : List α) (i j : Nat) (v d : α)
    (h : j ≠ i) : (l.set i v).getD j d = l.getD j d := by
  induction l generalizing i j with
  | nil => rfl
  | cons a l ih =>
    cases i with
    | zero =>
      cases j with
      | zero => exact absurd rfl h
      | succ k => rfl
    | succ i =>
      cases j with
      | zero => rfl
      | succ k => simpa using ih i k (by omega)

lemma getD_replicate_none (n j : Nat) :
    (List.replicate n PyVal.none).getD j PyVal.none = PyVal.none := by
  induction n generalizing j with
  | zero => rfl
  | succ n ih =>
    cases j with
    | zero => rfl
    | succ k => simpa [List.replicate] using ih k

lemma cellAt_padTo (r : List PyVal) (n j : Nat) : cellAt (padTo r n) j = cellAt r j := by
  induction r generalizing n j with
  | nil => simpa [padTo, cellAt] using getD_replicate_none n j
  | cons a r ih =>
    cases j with
    | zero => rfl
    | succ k =>
      have : padTo (a :: r) n = a :: padTo r (n - 1) := by
        simp only [padTo, List.cons_append, List.length_cons]
        rw [show n - (r.length + 1) = n - 1 - r.length from by omega]
      rw [this]
      simpa [cellAt] using ih (n - 1) k

lemma length_padTo (r : List PyVal) (n : Nat) : (padTo r n).length = max r.length n := by
  simp [padTo]
  omega

lemma cellAt_setCellAt_self (r : List PyVal) (i : Nat) (v : PyVal) :
    cellAt (setCellAt r i v) i = v := by
  have h : i < (padTo r (i + 1)).length := by
    rw [length_padTo]; omega
  simpa [setCellAt, cellAt] using listGetD_set_self (padTo r (i + 1)) i v PyVal.none h

lemma cellAt_setCellAt_ne (r : List PyVal) (i j : Nat) (v : PyVal) (h : j ≠ i) :
    cellAt (setCellAt r i v) j = cellAt r j := by
  simp only [setCellAt, cellAt]
  rw [listGetD_set_ne _ _ _ _ _ h]
  exact cellAt_padTo r (i + 1) j

lemma findRoomIdx_some (rows : List (List PyVal)) (room : String) (i : Nat)
    (h : findRoomIdx rows room = some i) :
    i < rows.length ∧ matchesRoom (rows.getD i []) room = true ∧
      ∀ j, j < i → matchesRoom (rows.getD j []) room = false := by
  induction rows generalizing i with
  | nil => simp [findRoomIdx] at h
  | cons r rs ih =>
    by_cases hm : matchesRoom r room
    · simp [findRoomIdx, hm] at h
      subst h
      exact ⟨by simp, by simpa using hm, fun j hj => by omega⟩
    · simp [findRoomIdx, hm] at h
      obtain ⟨k, hk, rfl⟩ := h
      obtain ⟨h1, h2, h3⟩ := ih k hk
      refine ⟨by simpa using h1, by simpa using h2, ?_⟩
      intro j hj
      cases j with
      | zero => simpa using hm
      | succ j => simpa using h3 j (by omega)

lemma findRoomIdx_none (rows : List (List PyVal)) (room : String) :
    findRoomIdx rows room = Option.none ↔ ∀ r ∈ rows, matchesRoom r room = false := by
  induction rows with
  | nil => simp [findRoomIdx]
  | cons r rs ih =>
    by_cases hm : matchesRoom r room
    · constructor
      · intro h
        exact absurd h (by simp [findRoomIdx, hm])
      · intro h
        exact absurd (h r (by simp)) (by simp [hm])
    · simp only [findRoomIdx, hm, if_false, Bool.false_eq_true]
      constructor
      · intro h
        intro x hx
        rcases List.mem_cons.1 hx with rfl | hx
        · simpa using hm
        · exact ih.1 (by simpa using h) x hx
      · intro h
        have := ih.2 (fun x hx => h x (List.mem_cons_of_mem _ hx))
        simp [this]

lemma findRoomIdx_of_spec (rows : List (List PyVal)) (room : String) (i : Nat)
    (h1 : i < rows.length) (h2 : matchesRoom (rows.getD i []) room = true)
    (h3 : ∀ j, j < i → matchesRoom (rows.getD j []) room = false) :
    findRoomIdx rows room = some i := by
  induction rows generalizing i with
  | nil => simp at h1
  | cons r rs ih =>
    cases i with
    | zero =>
      simpa [findRoomIdx] using h2
    | succ k =>
      have hr : matchesRoom r room = false := by simpa using h3 0 (by omega)
      have := ih k (by simpa using h1) (by simpa using h2)
        (fun j hj => by simpa using h3 (j + 1) (by omega))
      simp [findRoomIdx, hr, this]

lemma listRows_append (n : Nat) (a b : List (List PyVal)) :
    listRows n (a ++ b) = listRows n a ++ listRows n b := by
  induction a with
  | nil => rfl
  | cons r rs ih =>
    by_cases h : rowHasData r
    · simp [listRows, h, ih]
    · simp [listRows, h, ih]

lemma listRows_eq_filter_map (n : Nat) (rows : List (List PyVal)) :
    listRows n rows = (rows.filter rowHasData).map (mkWorkOrderOut n) := by
  induction rows with
  | nil => rfl
  | cons r rs ih =>
    by_cases h : rowHasData r
    · simp [listRows, h, List.filter_cons, ih]
    · simp [listRows, h, List.filter_cons, ih]

lemma mem_listRows (n : Nat) (rows : List (List PyVal)) (rec : WorkOrderOut)
    (h : rec ∈ listRows n rows) :
    ∃ r ∈ rows, rowHasData r = true ∧ rec = mkWorkOrderOut n r := by
  induction rows with
  | nil => simp [listRows] at h
  | cons r rs ih =>
    by_cases hr : rowHasData r
    · rw [listRows, if_pos hr] at h
      rcases List.mem_cons.1 h with rfl | h
      · exact ⟨r, by simp, hr, rfl⟩
      · obtain ⟨x, hx, h1, h2⟩ := ih h
        exact ⟨x, List.mem_cons_of_mem _ hx, h1, h2⟩
    · rw [listRows, if_neg hr] at h
      obtain ⟨x, hx, h1, h2⟩ := ih h
      exact ⟨x, List.mem_cons_of_mem _ hx, h1, h2⟩

lemma no_match_in_eraseIdx (rows : List (List PyVal)) (room : String) (i : Nat)
    (hfind : findRoomIdx rows room = some i)
    (hcount : (rows.filter (fun r => matchesRoom r room)).length ≤ 1) :
    ∀ r ∈ rows.eraseIdx i, matchesRoom r room = false := by
  induction rows generalizing i with
  | nil => simp [findRoomIdx] at hfind
  | cons r rs ih =>
    by_cases hm : matchesRoom r room
    · simp [findRoomIdx, hm] at hfind
      subst hfind
      have : (rs.filter (fun x => matchesRoom x room)).length = 0 := by
        rw [List.filter_cons, if_pos (by simpa using hm)] at hcount
        simpa using hcount
      have hnil : rs.filter (fun x => matchesRoom x room) = [] :=
        List.eq_nil_of_length_eq_zero this
      intro x hx
      have hx' : x ∈ rs := by simpa [List.eraseIdx] using hx
      by_contra hc
      have : x ∈ rs.filter (fun x => matchesRoom x room) :=
        List.mem_filter.2 ⟨hx', by simpa using hc⟩
      simp [hnil] at this
    · simp [findRoomIdx, hm] at hfind
      obtain ⟨k, hk, rfl⟩ := hfind
      have hcount' : (rs.filter (fun x => matchesRoom x room)).length ≤ 1 := by
        rwa [List.filter_cons, if_neg (by simpa using hm)] at hcount
      intro x hx
      rcases List.mem_cons.1 (by simpa [List.eraseIdx] using hx) with rfl | hx'
      · simpa using hm
      · exact ih k hk hcount' x hx'

lemma truthyOptStr_some_ne (s : String) (h : s ≠ "") : truthyOptStr (some s) = true := by
  cases s with
  | mk data =>
    cases data with
    | nil => exact absurd rfl h
    | cons c cs => rfl

lemma parseDate_empty : parseDate "" = Option.none := rfl

/-- Status of the HTTP response produced by a handler outcome. -/
def errStatus {α : Type} : Except HError α → Option Nat
  | Except.error e => some e.status
  | Except.ok _ => Option.none

lemma errStatus_wrap500 {α : Type} (x : Except HError α) :
    errStatus (wrap500 x) = Option.none ∨ errStatus (wrap500 x) = some 500 := by
  cases x with
  | error e => right; rfl
  | ok a => left; rfl

/-- C1 (code bug): the spec's designated error classes never reach the client.
Every handler wraps its body in a blanket `except Exception` that re-raises as
a 500, and FastAPI's `HTTPException` is itself an `Exception`, so the 400
validation errors and 404 not-found errors raised inside the body are caught
and surfaced as 500-class server errors.  The universal conjuncts show every
failing request (of any of the five handlers) yields status 500; the closed
conjuncts evaluate the handlers at the spec's own failing inputs: a submit of
2 rooms with 3 work orders, a submit dated "13-2025-01", removes against a
missing store and a missing room, an edit against a missing store, a status
update for a missing room, and a report for a missing store. -/
theorem error_responses_all_surface_as_500 :
    (∀ disk rn wo cd, errStatus (create_work_order disk rn wo cd) = Option.none
      ∨ errStatus (create_work_order disk rn wo cd) = some 500) ∧
    (∀ disk room, errStatus (remove_work_order disk room) = Option.none
      ∨ errStatus (remove_work_order disk room) = some 500) ∧
    (∀ disk pc rn wo cd, errStatus (edit_work_order disk pc rn wo cd) = Option.none
      ∨ errStatus (edit_work_order disk pc rn wo cd) = some 500) ∧
    (∀ disk pc rn st br, errStatus (update_room_status disk pc rn st br) = Option.none
      ∨ errStatus (update_room_status disk pc rn st br) = some 500) ∧
    (∀ disk, errStatus (generate_report disk) = Option.none
      ∨ errStatus (generate_report disk) = some 500) ∧
    create_work_order Option.none "101,102" "a,b,c" "2025-03-01"
      = Except.error ⟨500, "400: Number of rooms and work orders must match"⟩ ∧
    create_work_order Option.none "101" "a" "13-2025-01"
      = Except.error ⟨500, "400: Invalid date format. Use YYYY-MM-DD"⟩ ∧
    remove_work_order Option.none "101"
      = Except.error ⟨500, "404: No work orders found for this property"⟩ ∧
    remove_work_order (some ⟨5, []⟩) "101"
      = Except.error ⟨500, "404: No work order found for room 101"⟩ ∧
    edit_work_order Option.none (some "NY198") (some "101") (some "t") (some "2025-03-01")
      = Except.error ⟨500, "404: Property not found"⟩ ∧
    update_room_status (some ⟨5, []⟩) (some "NY198") (some "101") (some "Done") Option.none
      = Except.error ⟨500, "404: Room not found"⟩ ∧
    generate_report Option.none
      = Except.error ⟨500, "404: No work orders found for this property"⟩ :=
  ⟨fun disk rn wo cd => errStatus_wrap500 (createWorkOrderWrites disk rn wo cd).1,
   fun disk room => errStatus_wrap500 (remove_work_order_body disk room),
   fun disk pc rn wo cd => errStatus_wrap500 (edit_work_order_body disk pc rn wo cd),
   fun disk pc rn st br => errStatus_wrap500 (update_room_status_body disk pc rn st br),
   fun disk => errStatus_wrap500 (generate_report_body disk),
   rfl, rfl, rfl, rfl, rfl, rfl, rfl⟩

/-- C2 (confirmed): submitting a (room, text) pair for a room that already has
a record appends `" / " + text` to the record's work-order text, overwrites
its completion date with the submitted date, and leaves its room number,
status and best-room cells - and every other record - unchanged. -/
theorem submit_existing_room_appends_text
    (rows : List (List PyVal)) (room text : String) (cd : PyVal) (i : Nat)
    (oldText : String)
    (hfind : findRoomIdx rows room = some i)
    (hold : cellAt (rows.getD i []) 1 = PyVal.str oldText) :
    cellAt ((submitPair rows room text cd).getD i []) 1
        = PyVal.str (oldText ++ " / " ++ text) ∧
    cellAt ((submitPair rows room text cd).getD i []) 2 = cd ∧
    cellAt ((submitPair rows room text cd).getD i []) 0 = cellAt (rows.getD i []) 0 ∧
    cellAt ((submitPair rows room text cd).getD i []) 3 = cellAt (rows.getD i []) 3 ∧
    cellAt ((submitPair rows room text cd).getD i []) 4 = cellAt (rows.getD i []) 4 ∧
    (submitPair rows room text cd).length = rows.length ∧
    ∀ k, k ≠ i → (submitPair rows room text cd).getD k [] = rows.getD k [] := by
  have hi : i < rows.length := (findRoomIdx_some rows room i hfind).1
  have hsub : submitPair rows room text cd
      = rows.set i (setCellAt (setCellAt (rows.getD i []) 1
          (PyVal.str (pyStr (cellAt (rows.getD i []) 1) ++ " / " ++ text))) 2 cd) := by
    rw [submitPair, hfind]
  have hget : (submitPair rows room text cd).getD i []
      = setCellAt (setCellAt (rows.getD i []) 1
          (PyVal.str (pyStr (cellAt (rows.getD i []) 1) ++ " / " ++ text))) 2 cd := by
    rw [hsub]
    exact listGetD_set_self _ _ _ _ (by simpa using hi)
  refine ⟨?_, ?_, ?_, ?_, ?_, ?_, ?_⟩
  · rw [hget, cellAt_setCellAt_ne _ _ _ _ (by omega), cellAt_setCellAt_self, hold, pyStr]
  · rw [hget, cellAt_setCellAt_self]
  · rw [hget, cellAt_setCellAt_ne _ _ _ _ (by omega),
      cellAt_setCellAt_ne _ _ _ _ (by omega)]
  · rw [hget, cellAt_setCellAt_ne _ _ _ _ (by omega),
      cellAt_setCellAt_ne _ _ _ _ (by omega)]
  · rw [hget, cellAt_setCellAt_ne _ _ _ _ (by omega),
      cellAt_setCellAt_ne _ _ _ _ (by omega)]
  · rw [hsub, List.length_set]
  · intro k hk
    rw [hsub, listGetD_set_ne _ _ _ _ _ hk]

/-- Witness for the append-semantics theorem at a concrete store. -/
theorem submit_existing_room_appends_text_witness :
    cellAt ((submitPair [[PyVal.str "101", PyVal.str "Fix sink", PyVal.date 2025 1 2,
        PyVal.str "Done", PyVal.str "Yes"]] "101" "Replace bulb"
        (PyVal.date 2025 3 1)).getD 0 []) 1
      = PyVal.str "Fix sink / Replace bulb" ∧
    cellAt ((submitPair [[PyVal.str "101", PyVal.str "Fix sink", PyVal.date 2025 1 2,
        PyVal.str "Done", PyVal.str "Yes"]] "101" "Replace bulb"
        (PyVal.date 2025 3 1)).getD 0 []) 3
      = PyVal.str "Done" := by
  have h := submit_existing_room_appends_text
    [[PyVal.str "101", PyVal.str "Fix sink", PyVal.date 2025 1 2,
      PyVal.str "Done", PyVal.str "Yes"]] "101" "Replace bulb"
    (PyVal.date 2025 3 1) 0 "Fix sink" (by decide) (by decide)
  exact ⟨h.1, by rw [h.2.2.2.1]; rfl⟩

/-- C4 (confirmed): submitting a (room, text) pair for a room with no existing
record appends a fresh record whose status cell is "Pending", and `list()`
reports that record with status "Pending" and best-room "No" (the appended row
has no fifth cell, and `get_work_orders` normalises the absent flag). -/
theorem submit_new_room_defaults
    (sheet : Sheet) (room text : String) (y m d : Nat)
    (hfind : findRoomIdx sheet.rows room = Option.none) :
    submitPair sheet.rows room text (PyVal.date y m d)
      = sheet.rows
          ++ [[PyVal.str room, PyVal.str text, PyVal.date y m d, PyVal.str "Pending"]] ∧
    get_work_orders (some ⟨sheet.ncols, submitPair sheet.rows room text (PyVal.date y m d)⟩)
      = get_work_orders (some sheet)
          ++ [⟨room, text, padNat 4 y ++ "-" ++ padNat 2 m ++ "-" ++ padNat 2 d,
               "Pending", "No"⟩] := by
  have hsub : submitPair sheet.rows room text (PyVal.date y m d)
      = sheet.rows
          ++ [[PyVal.str room, PyVal.str text, PyVal.date y m d, PyVal.str "Pending"]] := by
    rw [submitPair, hfind]
  refine ⟨hsub, ?_⟩
  rw [get_work_orders, get_work_orders, hsub, listRows_append]
  congr 1
  have hdata : rowHasData
      [PyVal.str room, PyVal.str text, PyVal.date y m d, PyVal.str "Pending"] = true := rfl
  rw [listRows, if_pos hdata, listRows]
  congr 1
  have hcell4 : cellAt
      [PyVal.str room, PyVal.str text, PyVal.date y m d, PyVal.str "Pending"] 4
      = PyVal.none := rfl
  simp [mkWorkOrderOut, bestRoomOf, hcell4, cellAt, pyStr, format_cell_date, truthy]

/-- Witness for the new-room-default theorem at a concrete store. -/
theorem submit_new_room_defaults_witness :
    submitPair [[PyVal.str "101", PyVal.str "Fix sink", PyVal.date 2025 3 1,
        PyVal.str "Pending"]] "102" "Replace bulb" (PyVal.date 2025 3 1)
      = [[PyVal.str "101", PyVal.str "Fix sink", PyVal.date 2025 3 1, PyVal.str "Pending"],
         [PyVal.str "102", PyVal.str "Replace bulb", PyVal.date 2025 3 1,
          PyVal.str "Pending"]] ∧
    get_work_orders (some ⟨5, submitPair [[PyVal.str "101", PyVal.str "Fix sink",
        PyVal.date 2025 3 1, PyVal.str "Pending"]] "102" "Replace bulb"
        (PyVal.date 2025 3 1)⟩)
      = [⟨"101", "Fix sink", "2025-03-01", "Pending", "No"⟩,
         ⟨"102", "Replace bulb", "2025-03-01", "Pending", "No"⟩] := by
  have h := submit_new_room_defaults
    ⟨5, [[PyVal.str "101", PyVal.str "Fix sink", PyVal.date 2025 3 1, PyVal.str "Pending"]]⟩
    "102" "Replace bulb" 2025 3 1 (by decide)
  exact ⟨h.1, by rw [h.2]; rfl⟩

/-- C7 (confirmed): a successful edit replaces (does not concatenate) the
work-order text and completion date of the first record matching the room,
and modifies no other field of that record and no other record. -/
theorem edit_replaces_text_and_date
    (sheet : Sheet) (pc rn wo cd : String) (y m d : Nat) (i : Nat)
    (hpc : pc ≠ "") (hrn : rn ≠ "") (hwo : wo ≠ "")
    (hdate : parseDate cd = some (y, m, d))
    (hfind : findRoomIdx sheet.rows rn = some i) :
    ∃ s2 : Sheet,
      edit_work_order (some sheet) (some pc) (some rn) (some wo) (some cd)
        = Except.ok (s2, "Work order updated successfully") ∧
      s2.ncols = sheet.ncols ∧
      s2.rows.length = sheet.rows.length ∧
      cellAt (s2.rows.getD i []) 1 = PyVal.str wo ∧
      cellAt (s2.rows.getD i []) 2 = PyVal.date y m d ∧
      (∀ j, j ≠ 1 → j ≠ 2 → cellAt (s2.rows.getD i []) j = cellAt (sheet.rows.getD i []) j) ∧
      (∀ k, k ≠ i → s2.rows.getD k [] = sheet.rows.getD k []) := by
  have hcd : cd ≠ "" := by
    intro h
    rw [h, parseDate_empty] at hdate
    exact Option.noConfusion hdate
  have hi : i < sheet.rows.length := (findRoomIdx_some sheet.rows rn i hfind).1
  have hbody : edit_work_order_body (some sheet) (some pc) (some rn) (some wo) (some cd)
      = Except.ok (⟨sheet.ncols,
          sheet.rows.set i
            (setCellAt (setCellAt (sheet.rows.getD i []) 1 (PyVal.str wo)) 2
              (PyVal.date y m d))⟩,
        "Work order updated successfully") := by
    rw [edit_work_order_body]
    rw [truthyOptStr_some_ne pc hpc, truthyOptStr_some_ne rn hrn,
      truthyOptStr_some_ne wo hwo, truthyOptStr_some_ne cd hcd]
    simp only [Bool.and_self, Bool.not_true, Bool.false_eq_true, if_false, Option.getD_some]
    rw [hdate, hfind]
  refine ⟨⟨sheet.ncols,
      sheet.rows.set i
        (setCellAt (setCellAt (sheet.rows.getD i []) 1 (PyVal.str wo)) 2
          (PyVal.date y m d))⟩,
    by rw [edit_work_order, hbody]; rfl, rfl, by simp, ?_, ?_, ?_, ?_⟩
  · rw [listGetD_set_self _ _ _ _ (by simpa using hi),
      cellAt_setCellAt_ne _ _ _ _ (by omega), cellAt_setCellAt_self]
  · rw [listGetD_set_self _ _ _ _ (by simpa using hi), cellAt_setCellAt_self]
  · intro j hj1 hj2
    rw [listGetD_set_self _ _ _ _ (by simpa using hi),
      cellAt_setCellAt_ne _ _ _ _ hj2, cellAt_setCellAt_ne _ _ _ _ hj1]
  · intro k hk
    exact listGetD_set_ne _ _ _ _ _ hk

/-- Witness for the edit theorem at a concrete store. -/
theorem edit_replaces_text_and_date_witness :
    ∃ s2 : Sheet,
      edit_work_order
          (some ⟨5, [[PyVal.str "101", PyVal.str "Fix sink", PyVal.date 2025 1 2,
            PyVal.str "Done", PyVal.str "Yes"]]⟩)
          (some "NY198") (some "101") (some "Paint wall") (some "2025-04-05")
        = Except.ok (s2, "Work order updated successfully") ∧
      cellAt (s2.rows.getD 0 []) 1 = PyVal.str "Paint wall" ∧
      cellAt (s2.rows.getD 0 []) 2 = PyVal.date 2025 4 5 ∧
      cellAt (s2.rows.getD 0 []) 3 = PyVal.str "Done" := by
  obtain ⟨s2, h1, _, _, h4, h5, h6, _⟩ := edit_replaces_text_and_date
    ⟨5, [[PyVal.str "101", PyVal.str "Fix sink", PyVal.date 2025 1 2,
      PyVal.str "Done", PyVal.str "Yes"]]⟩
    "NY198" "101" "Paint wall" "2025-04-05" 2025 4 5 0
    (by decide) (by decide) (by decide) (by decide) (by decide)
  exact ⟨s2, h1, h4, h5, by rw [h6 3 (by omega) (by omega)]; rfl⟩

/-- C8 (confirmed): a successful status update sets the status cell and the
best-room cell of the first record matching the room - creating the best-room
column when the sheet predates it (4 columns), in which case the sheet grows
to 5 columns - and leaves every other field of that record and every other
record unchanged. -/
theorem update_status_sets_fields
    (sheet : Sheet) (pc rn st br : String) (i : Nat)
    (hpc : pc ≠ "") (hrn : rn ≠ "") (hst : st ≠ "")
    (hfind : findRoomIdx sheet.rows rn = some i) :
    ∃ s2 : Sheet,
      update_room_status (some sheet) (some pc) (some rn) (some st) (some br)
        = Except.ok (s2, "Room status updated successfully") ∧
      s2.ncols = (if 4 < sheet.ncols then sheet.ncols else 5) ∧
      4 < s2.ncols ∧
      s2.rows.length = sheet.rows.length ∧
      cellAt (s2.rows.getD i []) 3 = PyVal.str st ∧
      cellAt (s2.rows.getD i []) 4 = PyVal.str br ∧
      (∀ j, j ≠ 3 → j ≠ 4 → cellAt (s2.rows.getD i []) j = cellAt (sheet.rows.getD i []) j) ∧
      (∀ k, k ≠ i → s2.rows.getD k [] = sheet.rows.getD k []) := by
  have hi : i < sheet.rows.length := (findRoomIdx_some sheet.rows rn i hfind).1
  have hbody : update_room_status_body (some sheet) (some pc) (some rn) (some st) (some br)
      = Except.ok (⟨if 4 < sheet.ncols then sheet.ncols else 5,
          sheet.rows.set i
            (setCellAt (setCellAt (sheet.rows.getD i []) 3 (PyVal.str st)) 4
              (PyVal.str br))⟩,
        "Room status updated successfully") := by
    rw [update_room_status_body]
    rw [truthyOptStr_some_ne pc hpc, truthyOptStr_some_ne rn hrn,
      truthyOptStr_some_ne st hst]
    simp only [Bool.and_self, Bool.not_true, Bool.false_eq_true, if_false, Option.getD_some]
    rw [hfind]
  refine ⟨⟨if 4 < sheet.ncols then sheet.ncols else 5,
      sheet.rows.set i
        (setCellAt (setCellAt (sheet.rows.getD i []) 3 (PyVal.str st)) 4
          (PyVal.str br))⟩,
    by rw [update_room_status, hbody]; rfl, rfl, ?_, by simp, ?_, ?_, ?_, ?_⟩
  · by_cases h : 4 < sheet.ncols <;> simp [h] <;> omega
  · rw [listGetD_set_self _ _ _ _ (by simpa using hi),
      cellAt_setCellAt_ne _ _ _ _ (by omega), cellAt_setCellAt_self]
  · rw [listGetD_set_self _ _ _ _ (by simpa using hi), cellAt_setCellAt_self]
  · intro j hj1 hj2
    rw [listGetD_set_self _ _ _ _ (by simpa using hi),
      cellAt_setCellAt_ne _ _ _ _ hj2, cellAt_setCellAt_ne _ _ _ _ hj1]
  · intro k hk
    exact listGetD_set_ne _ _ _ _ _ hk

/-- Witness for the status-update theorem on a legacy 4-column sheet. -/
theorem update_status_sets_fields_witness :
    ∃ s2 : Sheet,
      update_room_status
          (some ⟨4, [[PyVal.str "101", PyVal.str "Fix sink", PyVal.date 2025 1 2,
            PyVal.str "Pending"]]⟩)
          (some "NY198") (some "101") (some "Done") (some "Yes")
        = Except.ok (s2, "Room status updated successfully") ∧
      s2.ncols = 5 ∧
      cellAt (s2.rows.getD 0 []) 3 = PyVal.str "Done" ∧
      cellAt (s2.rows.getD 0 []) 4 = PyVal.str "Yes" ∧
      cellAt (s2.rows.getD 0 []) 1 = PyVal.str "Fix sink" := by
  obtain ⟨s2, h1, h2, _, _, h5, h6, h7, _⟩ := update_status_sets_fields
    ⟨4, [[PyVal.str "101", PyVal.str "Fix sink", PyVal.date 2025 1 2, PyVal.str "Pending"]]⟩
    "NY198" "101" "Done" "Yes" 0 (by decide) (by decide) (by decide) (by decide)
  exact ⟨s2, h1, by rw [h2]; rfl, h5, h6, by rw [h7 1 (by omega) (by omega)]; rfl⟩

/-- C5 (corrected): a successful remove deletes exactly the first record
matching the room - the remaining records keep their fields and relative
order (rows after the deleted one shift up) - and, provided at most one
record matched the room, `list()` no longer contains that room.  The
unqualified "list() no longer contains that room" of the original claim
fails when the store holds duplicate room numbers (see the counterexample),
since only the first matching row is deleted. -/
theorem remove_first_match_frame
    (sheet : Sheet) (room : String) (s2 : Sheet) (msg : String)
    (h : remove_work_order (some sheet) room = Except.ok (s2, msg)) :
    ∃ i, findRoomIdx sheet.rows room = some i ∧
      s2.ncols = sheet.ncols ∧
      s2.rows = sheet.rows.take i ++ sheet.rows.drop (i + 1) ∧
      ((sheet.rows.filter (fun r => matchesRoom r room)).length ≤ 1 →
        ∀ rec ∈ get_work_orders (some s2), rec.room_number ≠ room) := by
  rw [remove_work_order, remove_work_order_body] at h
  cases hfind : findRoomIdx sheet.rows room with
  | none =>
    rw [hfind] at h
    exact absurd h (by simp [wrap500])
  | some i =>
    rw [hfind] at h
    simp only [wrap500] at h
    injection h with h'
    rw [Prod.mk.injEq] at h'
    obtain rfl := h'.1
    refine ⟨i, rfl, rfl, List.eraseIdx_eq_take_drop_succ _ _, ?_⟩
    intro hcount rec hrec
    obtain ⟨r, hr, _, rfl⟩ :=
      mem_listRows sheet.ncols (sheet.rows.eraseIdx i) rec
        (by simpa [get_work_orders] using hrec)
    have hnomatch := no_match_in_eraseIdx sheet.rows room i hfind hcount r hr
    intro heq
    rw [matchesRoom] at hnomatch
    have hpy : pyStr (cellAt r 0) = room := heq
    rw [hpy] at hnomatch
    simp at hnomatch

/-- Counterexample to C5 as stated: with two records for room "101", a
successful remove("101") deletes only the first, and `list()` still contains
room "101". -/
theorem remove_duplicate_room_cex :
    remove_work_order
        (some ⟨5,
          [[PyVal.str "101", PyVal.str "Fix sink", PyVal.date 2025 3 1, PyVal.str "Pending"],
           [PyVal.str "101", PyVal.str "Replace bulb", PyVal.date 2025 3 2,
            PyVal.str "Pending"]]⟩) "101"
      = Except.ok (⟨5,
          [[PyVal.str "101", PyVal.str "Replace bulb", PyVal.date 2025 3 2,
            PyVal.str "Pending"]]⟩,
          "Work order for room 101 removed successfully") ∧
    (get_work_orders (some ⟨5,
        [[PyVal.str "101", PyVal.str "Replace bulb", PyVal.date 2025 3 2,
          PyVal.str "Pending"]]⟩)).map (fun rec => rec.room_number) = ["101"] :=
  ⟨rfl, rfl⟩

/-- Witness for the remove theorem: removing "101" from a store holding rooms
"101" and "102" leaves a store whose listing no longer mentions "101". -/
theorem remove_first_match_frame_witness :
    "101" ∉ (get_work_orders (some (⟨5,
        [[PyVal.str "102", PyVal.str "b", PyVal.date 2025 3 2, PyVal.str "Pending"]]⟩ :
        Sheet))).map (fun rec => rec.room_number) := by
  intro hmem
  obtain ⟨i, hfind, hncols, hrows, hone⟩ := remove_first_match_frame
    ⟨5, [[PyVal.str "101", PyVal.str "a", PyVal.date 2025 3 1, PyVal.str "Pending"],
         [PyVal.str "102", PyVal.str "b", PyVal.date 2025 3 2, PyVal.str "Pending"]]⟩
    "101"
    ⟨5, [[PyVal.str "102", PyVal.str "b", PyVal.date 2025 3 2, PyVal.str "Pending"]]⟩
    "Work order for room 101 removed successfully" (by rfl)
  obtain ⟨rec, hrec, hreceq⟩ := List.mem_map.1 hmem
  exact hone (by decide) rec hrec hreceq

lemma isNoneVal_eq_false_iff (v : PyVal) : isNoneVal v = false ↔ v ≠ PyVal.none := by
  cases v <;> simp [isNoneVal]

/-- C6 (confirmed): `list()` on a missing store returns the empty list rather
than an error; on an existing store it returns exactly the records whose first
four cells are all non-null, in file order; and the reported best-room flag is
normalised to "No" whenever the fifth cell is empty or the sheet has no fifth
column. -/
theorem list_filters_and_normalizes :
    get_work_orders Option.none = [] ∧
    (∀ sheet : Sheet, get_work_orders (some sheet)
        = (sheet.rows.filter rowHasData).map (mkWorkOrderOut sheet.ncols)) ∧
    (∀ r : List PyVal, rowHasData r = true ↔
        (cellAt r 0 ≠ PyVal.none ∧ cellAt r 1 ≠ PyVal.none ∧
          cellAt r 2 ≠ PyVal.none ∧ cellAt r 3 ≠ PyVal.none)) ∧
    (∀ (ncols : Nat) (r : List PyVal), cellAt r 4 = PyVal.none ∨ ncols ≤ 4 →
        bestRoomOf ncols r = "No") := by
  refine ⟨rfl, fun sheet => listRows_eq_filter_map sheet.ncols sheet.rows, ?_, ?_⟩
  · intro r
    simp only [rowHasData, Bool.and_eq_true, Bool.not_eq_true', isNoneVal_eq_false_iff]
    tauto
  · intro ncols r h
    rcases h with h | h
    · simp [bestRoomOf, h, truthy]
    · have : (4 < ncols) = False := by simp; omega
      simp [bestRoomOf, this]

/-- Witness for the listing theorem at concrete rows: an incomplete row is
filtered out, and an absent fifth cell reports "No". -/
theorem list_filters_and_normalizes_witness :
    get_work_orders (some ⟨5,
        [[PyVal.str "101", PyVal.none, PyVal.date 2025 3 1, PyVal.str "Pending"],
         [PyVal.str "102", PyVal.str "b", PyVal.date 2025 3 2, PyVal.str "Pending"]]⟩)
      = [⟨"102", "b", "2025-03-02", "Pending", "No"⟩] ∧
    bestRoomOf 5 [PyVal.str "102", PyVal.str "b", PyVal.date 2025 3 2,
        PyVal.str "Pending"] = "No" := by
  constructor
  · rw [list_filters_and_normalizes.2.1]; rfl
  · exact list_filters_and_normalizes.2.2.2 5 _ (Or.inl rfl)

lemma remove_body_cases (sheet : Sheet) (room : String) :
    (∃ i, findRoomIdx sheet.rows room = some i ∧
      remove_work_order_body (some sheet) room
        = Except.ok (⟨sheet.ncols, sheet.rows.eraseIdx i⟩,
            "Work order for room " ++ room ++ " removed successfully")) ∨
    (findRoomIdx sheet.rows room = Option.none ∧
      remove_work_order_body (some sheet) room
        = Except.error ⟨404, "No work order found for room " ++ room⟩) := by
  cases hfind : findRoomIdx sheet.rows room with
  | none => exact Or.inr ⟨rfl, by rw [remove_work_order_body, hfind]⟩
  | some i => exact Or.inl ⟨i, rfl, by rw [remove_work_order_body, hfind]⟩

lemma edit_body_cases (sheet : Sheet) (pc rn wo cd : String) (y m d : Nat)
    (hpc : pc ≠ "") (hrn : rn ≠ "") (hwo : wo ≠ "")
    (hdate : parseDate cd = some (y, m, d)) :
    (∃ i, findRoomIdx sheet.rows rn = some i ∧
      edit_work_order_body (some sheet) (some pc) (some rn) (some wo) (some cd)
        = Except.ok (⟨sheet.ncols,
            sheet.rows.set i
              (setCellAt (setCellAt (sheet.rows.getD i []) 1 (PyVal.str wo)) 2
                (PyVal.date y m d))⟩,
          "Work order updated successfully")) ∨
    (findRoomIdx sheet.rows rn = Option.none ∧
      edit_work_order_body (some sheet) (some pc) (some rn) (some wo) (some cd)
        = Except.error ⟨404, "Room not found"⟩) := by
  have hcd : cd ≠ "" := by
    intro h
    rw [h, parseDate_empty] at hdate
    exact Option.noConfusion hdate
  have hpre : edit_work_order_body (some sheet) (some pc) (some rn) (some wo) (some cd)
      = match findRoomIdx sheet.rows rn with
        | Option.none => Except.error ⟨404, "Room not found"⟩
        | some i =>
          Except.ok (⟨sheet.ncols,
              sheet.rows.set i
                (setCellAt (setCellAt (sheet.rows.getD i []) 1 (PyVal.str wo)) 2
                  (PyVal.date y m d))⟩,
            "Work order updated successfully") := by
    rw [edit_work_order_body]
    rw [truthyOptStr_some_ne pc hpc, truthyOptStr_some_ne rn hrn,
      truthyOptStr_some_ne wo hwo, truthyOptStr_some_ne cd hcd]
    simp only [Bool.and_self, Bool.not_true, Bool.false_eq_true, if_false, Option.getD_some]
    rw [hdate]
  cases hfind : findRoomIdx sheet.rows rn with
  | none => exact Or.inr ⟨rfl, by rw [hpre, hfind]⟩
  | some i => exact Or.inl ⟨i, rfl, by rw [hpre, hfind]⟩

lemma update_body_cases (sheet : Sheet) (pc rn st : String) (br : Option String)
    (hpc : pc ≠ "") (hrn : rn ≠ "") (hst : st ≠ "") :
    (∃ i, findRoomIdx sheet.rows rn = some i ∧
      update_room_status_body (some sheet) (some pc) (some rn) (some st) br
        = Except.ok (⟨if 4 < sheet.ncols then sheet.ncols else 5,
            sheet.rows.set i
              (setCellAt (setCellAt (sheet.rows.getD i []) 3 (PyVal.str st)) 4
                (PyVal.str (br.getD "No")))⟩,
          "Room status updated successfully")) ∨
    (findRoomIdx sheet.rows rn = Option.none ∧
      update_room_status_body (some sheet) (some pc) (some rn) (some st) br
        = Except.error ⟨404, "Room not found"⟩) := by
  have hpre : update_room_status_body (some sheet) (some pc) (some rn) (some st) br
      = match findRoomIdx sheet.rows rn with
        | Option.none => Except.error ⟨404, "Room not found"⟩
        | some i =>
          Except.ok (⟨if 4 < sheet.ncols then sheet.ncols else 5,
              sheet.rows.set i
                (setCellAt (setCellAt (sheet.rows.getD i []) 3 (PyVal.str st)) 4
                  (PyVal.str (br.getD "No")))⟩,
            "Room status updated successfully") := by
    rw [update_room_status_body]
    rw [truthyOptStr_some_ne pc hpc, truthyOptStr_some_ne rn hrn,
      truthyOptStr_some_ne st hst]
    simp only [Bool.and_self, Bool.not_true, Bool.false_eq_true, if_false, Option.getD_some]
  cases hfind : findRoomIdx sheet.rows rn with
  | none => exact Or.inr ⟨rfl, by rw [hpre, hfind]⟩
  | some i => exact Or.inl ⟨i, rfl, by rw [hpre, hfind]⟩

/-- C10 (confirmed): every room lookup compares `str()` of the stored room
cell against the request string - a cell holding the integer 101 matches the
request "101", an empty (None) cell matches the request "None", and for
string cells matching is exact string equality with no numeric or whitespace
normalisation.  The lookup is a first-match scan, and all four mutating
operations (submit, remove, edit, update-status) succeed or take their
room-not-found path according to that one scan. -/
theorem room_matching_by_str_coercion :
    (∀ (rest : List PyVal) (n : Int) (room : String),
      matchesRoom (PyVal.int n :: rest) room = (toString n == room)) ∧
    (∀ (rest : List PyVal) (room : String),
      matchesRoom (PyVal.none :: rest) room = ("None" == room)) ∧
    (∀ (rest : List PyVal) (s room : String),
      matchesRoom (PyVal.str s :: rest) room = (s == room)) ∧
    (∀ rows room i, findRoomIdx rows room = some i ↔
      i < rows.length ∧ matchesRoom (rows.getD i []) room = true ∧
        ∀ j, j < i → matchesRoom (rows.getD j []) room = false) ∧
    (∀ rows room,
      findRoomIdx rows room = Option.none ↔ ∀ r ∈ rows, matchesRoom r room = false) ∧
    (∀ rows room text cd, findRoomIdx rows room = Option.none →
      submitPair rows room text cd
        = rows ++ [[PyVal.str room, PyVal.str text, cd, PyVal.str "Pending"]]) ∧
    (∀ sheet room, (∃ e, remove_work_order (some sheet) room = Except.error e)
      ↔ findRoomIdx sheet.rows room = Option.none) ∧
    (∀ sheet pc rn wo cd y m d, pc ≠ "" → rn ≠ "" → wo ≠ "" →
      parseDate cd = some (y, m, d) →
      ((∃ e, edit_work_order (some sheet) (some pc) (some rn) (some wo) (some cd)
          = Except.error e)
        ↔ findRoomIdx sheet.rows rn = Option.none)) ∧
    (∀ sheet pc rn st br, pc ≠ "" → rn ≠ "" → st ≠ "" →
      ((∃ e, update_room_status (some sheet) (some pc) (some rn) (some st) br
          = Except.error e)
        ↔ findRoomIdx sheet.rows rn = Option.none)) := by
  refine ⟨fun rest n room => rfl, fun rest room => rfl, fun rest s room => rfl,
    ?_, fun rows room => findRoomIdx_none rows room, ?_, ?_, ?_, ?_⟩
  · intro rows room i
    constructor
    · exact findRoomIdx_some rows room i
    · intro ⟨h1, h2, h3⟩
      exact findRoomIdx_of_spec rows room i h1 h2 h3
  · intro rows room text cd h
    rw [submitPair, h]
  · intro sheet room
    constructor
    · intro ⟨e, he⟩
      rcases remove_body_cases sheet room with ⟨i, hfind, hb⟩ | ⟨hfind, hb⟩
      · rw [remove_work_order, hb] at he
        exact absurd he (by simp [wrap500])
      · exact hfind
    · intro hfind
      rcases remove_body_cases sheet room with ⟨i, hf, hb⟩ | ⟨hf, hb⟩
      · rw [hf] at hfind
        exact Option.noConfusion hfind
      · exact ⟨_, by rw [remove_work_order, hb]; rfl⟩
  · intro sheet pc rn wo cd y m d hpc hrn hwo hdate
    constructor
    · intro ⟨e, he⟩
      rcases edit_body_cases sheet pc rn wo cd y m d hpc hrn hwo hdate with
        ⟨i, hfind, hb⟩ | ⟨hfind, hb⟩
      · rw [edit_work_order, hb] at he
        exact absurd he (by simp [wrap500])
      · exact hfind
    · intro hfind
      rcases edit_body_cases sheet pc rn wo cd y m d hpc hrn hwo hdate with
        ⟨i, hf, hb⟩ | ⟨hf, hb⟩
      · rw [hf] at hfind
        exact Option.noConfusion hfind
      · exact ⟨_, by rw [edit_work_order, hb]; rfl⟩
  · intro sheet pc rn st br hpc hrn hst
    constructor
    · intro ⟨e, he⟩
      rcases update_body_cases sheet pc rn st br hpc hrn hst with
        ⟨i, hfind, hb⟩ | ⟨hfind, hb⟩
      · rw [update_room_status, hb] at he
        exact absurd he (by simp [wrap500])
      · exact hfind
    · intro hfind
      rcases update_body_cases sheet pc rn st br hpc hrn hst with
        ⟨i, hf, hb⟩ | ⟨hf, hb⟩
      · rw [hf] at hfind
        exact Option.noConfusion hfind
      · exact ⟨_, by rw [update_room_status, hb]; rfl⟩

/-- Witness for the room-matching theorem: an integer cell 101 matches the
request string "101", a None cell matches "None", a stored "101 " (trailing
blank) does not match "101", and removing an absent room from a store whose
only room cell is the integer 101 fails. -/
theorem room_matching_by_str_coercion_witness :
    matchesRoom [PyVal.int 101, PyVal.str "t", PyVal.date 2025 1 1,
        PyVal.str "Pending"] "101" = true ∧
    matchesRoom [PyVal.none] "None" = true ∧
    matchesRoom [PyVal.str "101 "] "101" = false ∧
    (∃ e, remove_work_order
        (some ⟨5, [[PyVal.int 101, PyVal.str "t", PyVal.date 2025 1 1,
          PyVal.str "Pending"]]⟩) "102" = Except.error e) := by
  refine ⟨?_, ?_, ?_, ?_⟩
  · rw [room_matching_by_str_coercion.1]; rfl
  · rw [room_matching_by_str_coercion.2.1]; rfl
  · rw [room_matching_by_str_coercion.2.2.1]; rfl
  · exact (room_matching_by_str_coercion.2.2.2.2.2.2.1 _ "102").2 (by decide)

/-- The in-memory table produced by the `create_work_order` loop: every
(room, text) pair of the request applied by `submitPair` in order. -/
def processPairs (rows : List (List PyVal)) (rn wo : String) (y m d : Nat) :
    List (List PyVal) :=
  (((splitOnChar ',' rn).map pyStrip).zip ((splitOnChar ',' wo).map pyStrip)).foldl
    (fun rs p => submitPair rs p.1 p.2 (PyVal.date y m d)) rows

/-- C9 (corrected): the submit operation saves the fully-processed table
exactly once, after the loop over all (room, text) pairs, and a failing
request saves nothing - so no in-loop mutation of the in-memory table is ever
persisted by a failed request.  However, when the store file does not yet
exist, `ensure_excel_file` additionally saves a header-only workbook before
processing, so such a request persists twice, not "exactly once" (see the
counterexample). -/
theorem submit_single_post_loop_save (disk : Option Sheet) (rn wo cd : String) :
    ((∃ e, (createWorkOrderWrites disk rn wo cd).1 = Except.error e) →
      (createWorkOrderWrites disk rn wo cd).2 = []) ∧
    (∀ (s : Sheet) (msg : String), disk = some s →
      (createWorkOrderWrites disk rn wo cd).1 = Except.ok msg →
      ∃ y m d, parseDate cd = some (y, m, d) ∧
        (createWorkOrderWrites disk rn wo cd).2
          = [⟨s.ncols, processPairs s.rows rn wo y m d⟩]) ∧
    (∀ msg : String, disk = Option.none →
      (createWorkOrderWrites disk rn wo cd).1 = Except.ok msg →
      ∃ y m d, parseDate cd = some (y, m, d) ∧
        (createWorkOrderWrites disk rn wo cd).2
          = [emptySheet, ⟨5, processPairs [] rn wo y m d⟩]) := by
  by_cases hlen : ((splitOnChar ',' rn).map pyStrip).length
      = ((splitOnChar ',' wo).map pyStrip).length
  · cases hdate : parseDate cd with
    | none =>
      have hw : createWorkOrderWrites disk rn wo cd
          = (Except.error ⟨400, "Invalid date format. Use YYYY-MM-DD"⟩, []) := by
        rw [createWorkOrderWrites.eq_def]
        simp only [hlen, ne_eq, not_true_eq_false, if_false, hdate]
      refine ⟨fun _ => by rw [hw], ?_, ?_⟩
      · intro s msg hd hok
        rw [hw] at hok
        exact absurd hok (by simp)
      · intro msg hd hok
        rw [hw] at hok
        exact absurd hok (by simp)
    | some ymd =>
      obtain ⟨y, m, d⟩ := ymd
      cases disk with
      | none =>
        have hw : createWorkOrderWrites Option.none rn wo cd
            = (Except.ok "Work orders saved successfully",
               [emptySheet, ⟨5, processPairs [] rn wo y m d⟩]) := by
          rw [createWorkOrderWrites]
          simp only [hlen, ne_eq, not_true_eq_false, if_false, hdate]
          rfl
        refine ⟨?_, ?_, ?_⟩
        · intro ⟨e, he⟩
          rw [hw] at he
          exact absurd he (by simp)
        · intro s msg hd
          exact absurd hd (by simp)
        · intro msg hd hok
          exact ⟨y, m, d, rfl, by rw [hw]⟩
      | some s =>
        have hw : createWorkOrderWrites (some s) rn wo cd
            = (Except.ok "Work orders saved successfully",
               [⟨s.ncols, processPairs s.rows rn wo y m d⟩]) := by
          rw [createWorkOrderWrites]
          simp only [hlen, ne_eq, not_true_eq_false, if_false, hdate]
          rfl
        refine ⟨?_, ?_, ?_⟩
        · intro ⟨e, he⟩
          rw [hw] at he
          exact absurd he (by simp)
        · intro s' msg hd hok
          obtain rfl : s = s' := by simpa using hd
          exact ⟨y, m, d, rfl, by rw [hw]⟩
        · intro msg hd
          exact absurd hd (by simp)
  · have hw : createWorkOrderWrites disk rn wo cd
        = (Except.error ⟨400, "Number of rooms and work orders must match"⟩, []) := by
      rw [createWorkOrderWrites.eq_def]
      simp only [ne_eq, hlen, not_false_eq_true, if_true]
    refine ⟨fun _ => by rw [hw], ?_, ?_⟩
    · intro s msg hd hok
      rw [hw] at hok
      exact absurd hok (by simp)
    · intro msg hd hok
      rw [hw] at hok
      exact absurd hok (by simp)

/-- Counterexample to C9 as stated: a valid submit against a property with no
store file performs two saves (header-only creation, then the processed
table), not exactly one. -/
theorem submit_fresh_store_two_writes_cex :
    (createWorkOrderWrites Option.none "101" "Fix sink" "2025-03-01").1
      = Except.ok "Work orders saved successfully" ∧
    (createWorkOrderWrites Option.none "101" "Fix sink" "2025-03-01").2
      = [emptySheet,
         ⟨5, [[PyVal.str "101", PyVal.str "Fix sink", PyVal.date 2025 3 1,
           PyVal.str "Pending"]]⟩] ∧
    (createWorkOrderWrites Option.none "101" "Fix sink" "2025-03-01").2.length = 2 :=
  ⟨rfl, rfl, rfl⟩

/-- Witness for the single-post-loop-save theorem: a valid submit against an
existing (empty) store saves exactly the processed table, once; an invalid
submit saves nothing. -/
theorem submit_single_post_loop_save_witness :
    (createWorkOrderWrites (some ⟨5, []⟩) "101" "Fix sink" "2025-03-01").2
      = [⟨5, [[PyVal.str "101", PyVal.str "Fix sink", PyVal.date 2025 3 1,
          PyVal.str "Pending"]]⟩] ∧
    (createWorkOrderWrites (some ⟨5, []⟩) "101,102" "a,b,c" "2025-03-01").2 = [] := by
  constructor
  · obtain ⟨y, m, d, hd, hwrites⟩ :=
      (submit_single_post_loop_save (some ⟨5, []⟩) "101" "Fix sink" "2025-03-01").2.1
        ⟨5, []⟩ "Work orders saved successfully" rfl (by rfl)
    obtain ⟨hy, hm, hdd⟩ : y = 2025 ∧ m = 3 ∧ d = 1 := by
      have h2 : parseDate "2025-03-01" = some (2025, 3, 1) := rfl
      rw [hd] at h2
      simpa using h2
    subst hy; subst hm; subst hdd
    rw [hwrites]
    rfl
  · exact (submit_single_post_loop_save (some ⟨5, []⟩) "101,102" "a,b,c" "2025-03-01").1
      ⟨⟨400, "Number of rooms and work orders must match"⟩, by rfl⟩

lemma stringMk_data (s : String) : String.mk s.data = s := by
  cases s
  rfl

lemma exceedsBudget_empty : exceedsBudget "" = false := rfl

lemma joinSp_cons_cons (w x : String) (xs : List String) :
    joinSp (w :: x :: xs) = w ++ " " ++ joinSp (x :: xs) := rfl

lemma pySplitAux_append_space (xs : List Char) :
    ∀ (acc ys : List Char),
    pySplitAux (xs ++ ' ' :: ys) acc = pySplitAux xs acc ++ pySplitAux ys [] := by
  induction xs with
  | nil =>
    intro acc ys
    by_cases h : acc.isEmpty
    · simp [pySplitAux, h]
    · simp [pySplitAux, h]
  | cons c cs ih =>
    intro acc ys
    by_cases hc : c.isWhitespace
    · by_cases h : acc.isEmpty
      · simp [pySplitAux, hc, h, ih]
      · simp [pySplitAux, hc, h, ih]
    · simp [pySplitAux, hc, ih]

lemma pySplit_append_space (a b : String) :
    pySplit (a ++ " " ++ b) = pySplit a ++ pySplit b := by
  have hdata : (a ++ " " ++ b).data = a.data ++ ' ' :: b.data := by
    show (a.data ++ " ".data) ++ b.data = a.data ++ ' ' :: b.data
    simp
  rw [pySplit, hdata, pySplitAux_append_space]
  rfl

lemma pySplit_joinSp (l : List String) :
    pySplit (joinSp l) = (l.map pySplit).flatten := by
  induction l with
  | nil => rfl
  | cons w ws ih =>
    cases ws with
    | nil => simp [joinSp]
    | cons x xs =>
      rw [joinSp_cons_cons, pySplit_append_space, ih]
      simp

lemma pySplitAux_words (cs : List Char) :
    ∀ acc : List Char, (∀ c ∈ acc, c.isWhitespace = false) →
    ∀ w ∈ pySplitAux cs acc, w.data ≠ [] ∧ ∀ c ∈ w.data, c.isWhitespace = false := by
  induction cs with
  | nil =>
    intro acc hacc w hw
    by_cases h : acc.isEmpty
    · rw [pySplitAux, if_pos h] at hw
      simp at hw
    · rw [pySplitAux, if_neg h] at hw
      have hw' : w = String.mk acc.reverse := by simpa using hw
      subst hw'
      refine ⟨?_, ?_⟩
      · have : acc ≠ [] := by simpa [List.isEmpty_iff] using h
        simpa using this
      · intro c hc
        exact hacc c (List.mem_reverse.1 (by simpa using hc))
  | cons c cs ih =>
    intro acc hacc w hw
    by_cases hc : c.isWhitespace
    · by_cases h : acc.isEmpty
      · rw [pySplitAux, if_pos hc, if_pos h] at hw
        exact ih [] (by simp) w hw
      · rw [pySplitAux, if_pos hc, if_neg h] at hw
        rcases List.mem_cons.1 hw with rfl | hw'
        · refine ⟨?_, ?_⟩
          · have : acc ≠ [] := by simpa [List.isEmpty_iff] using h
            simpa using this
          · intro x hx
            exact hacc x (List.mem_reverse.1 (by simpa using hx))
        · exact ih [] (by simp) w hw'
    · rw [pySplitAux, if_neg hc] at hw
      refine ih (c :: acc) ?_ w hw
      intro x hx
      rcases List.mem_cons.1 hx with rfl | hx'
      · simpa using hc
      · exact hacc x hx'

lemma pySplit_words (s : String) :
    ∀ w ∈ pySplit s, w.data ≠ [] ∧ ∀ c ∈ w.data, c.isWhitespace = false :=
  pySplitAux_words s.data [] (by simp)

lemma pySplitAux_no_ws (cs : List Char) :
    ∀ acc : List Char, (∀ c ∈ cs, c.isWhitespace = false) →
    pySplitAux cs acc = pySplitAux [] (cs.reverse ++ acc) := by
  induction cs with
  | nil => intro acc h; simp
  | cons c cs ih =>
    intro acc h
    have hc : c.isWhitespace = false := h c (by simp)
    have hstep : pySplitAux (c :: cs) acc = pySplitAux cs (c :: acc) := by
      simp [pySplitAux, hc]
    rw [hstep, ih (c :: acc) (fun x hx => h x (List.mem_cons_of_mem _ hx))]
    congr 1
    simp

lemma pySplit_single_word (w : String) (h1 : w.data ≠ [])
    (h2 : ∀ c ∈ w.data, c.isWhitespace = false) : pySplit w = [w] := by
  rw [pySplit, pySplitAux_no_ws w.data [] h2]
  have hne : ¬ (w.data.reverse ++ []).isEmpty = true := by
    simp [List.isEmpty_iff, h1]
  rw [pySplitAux, if_neg hne]
  simp [stringMk_data]

lemma flatten_map_singleton (l : List String) : (l.map (fun w => [w])).flatten = l := by
  induction l with
  | nil => rfl
  | cons a t ih => simp [ih]

lemma pySplit_joinSp_words (g : List String)
    (h : ∀ w ∈ g, w.data ≠ [] ∧ ∀ c ∈ w.data, c.isWhitespace = false) :
    pySplit (joinSp g) = g := by
  rw [pySplit_joinSp]
  have hmap : g.map pySplit = g.map (fun w => [w]) :=
    List.map_congr_left (fun w hw => pySplit_single_word w (h w hw).1 (h w hw).2)
  rw [hmap, flatten_map_singleton]

/-- The invariant of the greedy-wrap loop over the words processed so far:
the closed lines partition the processed words into groups; each closed group
is within budget unless it is a single word; the current line is the last
group-in-progress, within budget unless it is a single freshly-restarted
word; and while no line has been closed, the current line is all processed
words and was last checked within budget. -/
def StInv (p : List String) (st : List String × List String) : Prop :=
  (∃ gs : List (List String), st.1 = gs.map joinSp ∧ gs.flatten ++ st.2 = p ∧
      ∀ g ∈ gs, exceedsBudget (joinSp g) = false ∨ ∃ u, g = [u]) ∧
  (p ≠ [] → st.2 ≠ []) ∧
  (st.1 = [] → st.2 = p) ∧
  (st.1 = [] → st.2 ≠ [] → exceedsBudget (joinSp st.2) = false) ∧
  (st.2 = [] ∨ exceedsBudget (joinSp st.2) = false ∨ ∃ u, st.2 = [u])

lemma stInv_init : StInv [] ([], []) :=
  ⟨⟨[], rfl, rfl, by simp⟩, by simp, fun _ => rfl, fun _ h => absurd rfl h, Or.inl rfl⟩

lemma stInv_step (p : List String) (st : List String × List String) (w : String)
    (h : StInv p st) : StInv (p ++ [w]) (wrapStep st w) := by
  obtain ⟨⟨gs, hmap, hflat, hgs⟩, _, hemp, _, hcur⟩ := h
  rw [wrapStep]
  by_cases hex : exceedsBudget (joinSp (st.2 ++ [w])) = true
  · rw [if_pos hex]
    refine ⟨⟨gs ++ [st.2], ?_, ?_, ?_⟩, ?_, ?_, ?_, ?_⟩
    · simp [hmap]
    · rw [List.flatten_append, ← hflat]
      simp
    · intro g hg
      rcases List.mem_append.1 hg with hg | hg
      · exact hgs g hg
      · have hgst : g = st.2 := by simpa using hg
        subst hgst
        rcases hcur with h2 | h2 | h2
        · exact Or.inl (by rw [h2]; exact exceedsBudget_empty)
        · exact Or.inl h2
        · exact Or.inr h2
    · intro _
      simp
    · intro hl
      exact absurd hl (by simp)
    · intro hl
      exact absurd hl (by simp)
    · exact Or.inr (Or.inr ⟨w, rfl⟩)
  · rw [if_neg hex]
    refine ⟨⟨gs, hmap, ?_, hgs⟩, ?_, ?_, ?_, ?_⟩
    · rw [← List.append_assoc, hflat]
    · intro _
      simp
    · intro hl
      rw [hemp hl]
    · intro _ _
      simpa using hex
    · exact Or.inr (Or.inl (by simpa using hex))

lemma stInv_fold (ws : List String) :
    ∀ (p : List String) (st : List String × List String),
    StInv p st → StInv (p ++ ws) (ws.foldl wrapStep st) := by
  induction ws with
  | nil =>
    intro p st h
    simpa using h
  | cons w ws ih =>
    intro p st h
    have := ih (p ++ [w]) (wrapStep st w) (stInv_step p st w h)
    rw [List.foldl_cons]
    rw [List.append_assoc] at this
    simpa using this

lemma stInv_wrapFold (ws : List String) : StInv ws (wrapFold ws) := by
  have := stInv_fold ws [] ([], []) stInv_init
  simpa [wrapFold] using this

lemma wrapLines_groups (ws : List String) :
    ∃ gs : List (List String), wrapLines ws = gs.map joinSp ∧ gs.flatten = ws ∧
      ∀ g ∈ gs, exceedsBudget (joinSp g) = false ∨ ∃ u, g = [u] := by
  obtain ⟨⟨gs, hmap, hflat, hgs⟩, _, _, _, hcur⟩ := stInv_wrapFold ws
  rw [wrapLines]
  by_cases h2 : (wrapFold ws).2.isEmpty
  · have h2' : (wrapFold ws).2 = [] := List.isEmpty_iff.1 h2
    refine ⟨gs, by rw [if_pos h2, hmap], ?_, hgs⟩
    rw [h2'] at hflat
    simpa using hflat
  · have h2' : (wrapFold ws).2 ≠ [] := by simpa [List.isEmpty_iff] using h2
    refine ⟨gs ++ [(wrapFold ws).2], ?_, ?_, ?_⟩
    · rw [if_neg h2, hmap]
      simp
    · rw [List.flatten_append]
      simpa using hflat
    · intro g hg
      rcases List.mem_append.1 hg with hg | hg
      · exact hgs g hg
      · have hgst : g = (wrapFold ws).2 := by simpa using hg
        subst hgst
        rcases hcur with hc | hc | hc
        · exact absurd hc h2'
        · exact Or.inl hc
        · exact Or.inr hc

lemma wrapLines_ge_two (ws : List String) (h : exceedsBudget (joinSp ws) = true) :
    2 ≤ (wrapLines ws).length := by
  have hw : ws ≠ [] := by
    intro hnil
    rw [hnil] at h
    exact absurd h (by rw [show joinSp [] = "" from rfl, exceedsBudget_empty]; simp)
  obtain ⟨_, hne, hemp, hbud, _⟩ := stInv_wrapFold ws
  have hcur_ne : (wrapFold ws).2 ≠ [] := hne hw
  by_cases h1 : (wrapFold ws).1 = []
  · have hb := hbud h1 hcur_ne
    rw [hemp h1] at hb
    rw [hb] at h
    exact absurd h (by simp)
  · rw [wrapLines, if_neg (by simpa [List.isEmpty_iff] using hcur_ne)]
    have hlen : 1 ≤ (wrapFold ws).1.length := by
      cases hfw : (wrapFold ws).1 with
      | nil => exact absurd hfw h1
      | cons a l => simp
    rw [List.length_append]
    simp
    omega

lemma wrapLines_over_budget_is_word (ws : List String) (line : String)
    (hline : line ∈ wrapLines ws) (hover : exceedsBudget line = true) :
    line ∈ ws := by
  obtain ⟨gs, hmap, hflat, hgs⟩ := wrapLines_groups ws
  rw [hmap] at hline
  obtain ⟨g, hg, rfl⟩ := List.mem_map.1 hline
  rcases hgs g hg with hc | ⟨u, rfl⟩
  · rw [hc] at hover
    exact absurd hover (by simp)
  · rw [show joinSp [u] = u from rfl]
    rw [← hflat]
    exact List.mem_flatten.2 ⟨[u], hg, by simp⟩

/-- C3 (corrected): for every work-order text, the report's greedy word-wrap
produces at least two lines whenever the single-line rendering of the text's
words exceeds the 230-point Helvetica-10 budget, and the space-joined
concatenation of the produced lines reconstructs the original word sequence.
The original claim's "every produced line is within the budget" must be
weakened: any line that exceeds the budget is a single original word whose
own rendered width exceeds the budget (a word longer than the budget is
emitted on a line of its own, over budget - see the counterexample); every
other line is within budget. -/
theorem wrap_lines_structure (text : String) :
    (exceedsBudget (joinSp (pySplit text)) = true → 2 ≤ (wrapText text).length) ∧
    (∀ line ∈ wrapText text, exceedsBudget line = true → line ∈ pySplit text) ∧
    pySplit (joinSp (wrapText text)) = pySplit text := by
  refine ⟨fun h => wrapLines_ge_two (pySplit text) h,
    fun line hl ho => wrapLines_over_budget_is_word (pySplit text) line hl ho, ?_⟩
  obtain ⟨gs, hmap, hflat, _⟩ := wrapLines_groups (pySplit text)
  rw [wrapText, hmap]
  have hw : ∀ w ∈ gs.flatten, w.data ≠ [] ∧ ∀ c ∈ w.data, c.isWhitespace = false := by
    rw [hflat]
    exact pySplit_words text
  rw [pySplit_joinSp]
  have hcongr : (gs.map joinSp).map pySplit = gs.map (fun g => (g.map pySplit).flatten) := by
    rw [List.map_map]
    exact List.map_congr_left (fun g _ => pySplit_joinSp g)
  rw [hcongr]
  have hgroups : gs.map (fun g => (g.map pySplit).flatten) = gs.map id := by
    refine List.map_congr_left (fun g hg => ?_)
    have hws : ∀ w ∈ g, w.data ≠ [] ∧ ∀ c ∈ w.data, c.isWhitespace = false :=
      fun w hwg => hw w (List.mem_flatten.2 ⟨g, hg, hwg⟩)
    have hmapg : g.map pySplit = g.map (fun w => [w]) :=
      List.map_congr_left (fun w hwg => pySplit_single_word w (hws w hwg).1 (hws w hwg).2)
    rw [hmapg, flatten_map_singleton]
    rfl
  rw [hgroups]
  simpa using hflat

/-- Counterexample to C3 as stated: for the single 28-character word
"mmm...m" (rendered width 233.24 points in Helvetica 10, over the 230-point
budget), the wrap produces the two lines ["", "mmm...m"], and the second
line's rendered width exceeds the budget - so not every produced line is
individually within budget. -/
theorem wrap_line_exceeds_budget_cex :
    exceedsBudget (joinSp (pySplit (String.mk (List.replicate 28 'm')))) = true ∧
    wrapText (String.mk (List.replicate 28 'm'))
      = ["", String.mk (List.replicate 28 'm')] ∧
    exceedsBudget (String.mk (List.replicate 28 'm')) = true :=
  ⟨rfl, rfl, rfl⟩

/-- Witness for the wrap theorem: a long multi-word text wraps to at least two
lines, and a short text's lines rejoin to its word sequence. -/
theorem wrap_lines_structure_witness :
    2 ≤ (wrapText "replace the broken mirror above the sink and repaint the whole bathroom ceiling after the leak").length ∧
    pySplit (joinSp (wrapText "Fix sink")) = pySplit "Fix sink" :=
  ⟨(wrap_lines_structure "replace the broken mirror above the sink and repaint the whole bathroom ceiling after the leak").1 rfl,
   (wrap_lines_structure "Fix sink").2.2⟩
